import Mathlib

/-!
Shallow embedding of pkg/skaffold/deploy/kustomize.go: the kustomize
dependency resolver, the render pipeline and the deploy controller,
together with proofs of the specification claims about them.

Filesystem access, the external kustomize/kubectl processes and the
manifest utilities are collaborators; they are modelled as explicit
function parameters. Paths follow the Unix rules of Go path/filepath.
-/

set_option autoImplicit false

namespace Kustomize

/-! ## Go path/filepath (Unix rules), as used by the source -/

/-- Splits a list of characters on a separator character, in the style of
Go strings.Split with a one-character separator: the empty input yields a
single empty field. -/
def splitOnCharAux (sep : Char) : List Char → List Char → List String
  | [], cur => [String.mk cur.reverse]
  | c :: cs, cur =>
    if c = sep then String.mk cur.reverse :: splitOnCharAux sep cs []
    else splitOnCharAux sep cs (c :: cur)

/-- Go strings.Split for a one-character separator. -/
def splitOnChar (sep : Char) (s : String) : List String :=
  splitOnCharAux sep s.toList []

/-- Joins a list of strings with a separator string. -/
def joinWith (sep : String) : List String → String
  | [] => ""
  | [x] => x
  | x :: y :: xs => x ++ sep ++ joinWith sep (y :: xs)

/-- Go filepath.IsAbs on Unix: the path begins with a slash. -/
def filepathIsAbs (p : String) : Bool :=
  match p.toList with
  | '/' :: _ => true
  | _ => false

/-- The lexical element loop of Go filepath.Clean: walks the
slash-separated elements, dropping empty and dot elements and resolving
dotdot elements against the output stack (kept in reverse order). -/
def cleanLoop (rooted : Bool) : List String → List String → List String
  | acc, [] => acc.reverse
  | acc, e :: rest =>
    if e = "" ∨ e = "." then cleanLoop rooted acc rest
    else if e = ".." then
      match acc with
      | [] => if rooted then cleanLoop rooted [] rest else cleanLoop rooted [".."] rest
      | top :: accTail =>
        if top = ".." then cleanLoop rooted (".." :: top :: accTail) rest
        else cleanLoop rooted accTail rest
    else cleanLoop rooted (e :: acc) rest

/-- Go filepath.Clean on a Unix path: purely lexical simplification. -/
def filepathClean (path : String) : String :=
  if path = "" then "."
  else
    let rooted := filepathIsAbs path
    let parts := cleanLoop rooted [] (splitOnChar '/' path)
    if rooted then "/" ++ joinWith "/" parts
    else if parts = [] then "." else joinWith "/" parts

/-- Go filepath.Join on two elements: starts at the first non-empty
element, joins with a slash and cleans the result. -/
def filepathJoin (a b : String) : String :=
  if a ≠ "" then filepathClean (a ++ "/" ++ b)
  else if b ≠ "" then filepathClean b
  else ""

/-- Go filepath.Base: the last element of the path once trailing slashes
are removed. -/
def filepathBase (path : String) : String :=
  if path = "" then "."
  else
    let stripped := String.mk ((path.toList.reverse.dropWhile (fun c => c = '/')).reverse)
    if stripped = "" then "/"
    else
      match (splitOnChar '/' stripped).getLast? with
      | some last => last
      | none => "/"

/-- Go filepath.Dir: everything up to and including the final slash,
cleaned. -/
def filepathDir (path : String) : String :=
  filepathClean (String.mk ((path.toList.reverse.dropWhile (fun c => c ≠ '/')).reverse))

/-! ## Package-level constants of kustomize.go -/

def DefaultKustomizePath : String := "."

def kustomizeFilePaths : List String :=
  ["kustomization.yaml", "kustomization.yml", "Kustomization"]

def basePath : String := "base"

/-! ## YAML scalar nodes and the patch types

The yaml.v3 node styles are bit flags; the source compares the style of a
scalar node against the quoted styles by equality. -/

def taggedStyle : Nat := 1
def doubleQuotedStyle : Nat := 2
def singleQuotedStyle : Nat := 4
def literalStyle : Nat := 8
def foldedStyle : Nat := 16
def flowStyle : Nat := 32

/-- A YAML scalar node as seen by an UnmarshalYAML hook: its style flags
and its scalar value. -/
structure YamlNode where
  style : Nat
  value : String
deriving DecidableEq

/-- The patchPath struct: a patches entry with a path field and a patch
(inline content) field. -/
structure patchPath where
  Path : String
  Patch : String
deriving DecidableEq

/-- The strategicMergePatch struct: path or inline content. -/
structure strategicMergePatch where
  Path : String
  Patch : String
deriving DecidableEq

/-- The patchesJson6902 entry: only its path field is read. -/
structure patchJSON6902 where
  Path : String
deriving DecidableEq

/-- A configMapGenerator entry. -/
structure configMapGenerator where
  Files : List String
  Env : String
  Envs : List String
deriving DecidableEq

/-- A secretGenerator entry. -/
structure secretGenerator where
  Files : List String
  Env : String
  Envs : List String
deriving DecidableEq

/-- The parsed content of a kustomization file. -/
structure kustomization where
  Bases : List String
  Resources : List String
  Patches : List patchPath
  PatchesStrategicMerge : List strategicMergePatch
  CRDs : List String
  PatchesJSON6902 : List patchJSON6902
  ConfigMapGenerator : List configMapGenerator
  SecretGenerator : List secretGenerator
deriving DecidableEq

/-- A kustomization value with every field empty, for building concrete
configs. -/
def emptyKustomization : kustomization :=
  { Bases := [], Resources := [], Patches := [], PatchesStrategicMerge := [],
    CRDs := [], PatchesJSON6902 := [], ConfigMapGenerator := [], SecretGenerator := [] }

/-- UnmarshalYAML of strategicMergePatch: a plain scalar (style zero) or a
double or single quoted scalar stores its value in Path; any other style
stores it in Patch. -/
def strategicMergePatch.unmarshalYAML (node : YamlNode) : strategicMergePatch :=
  if node.style = 0 ∨ node.style = doubleQuotedStyle ∨ node.style = singleQuotedStyle then
    { Path := node.value, Patch := "" }
  else
    { Path := "", Patch := node.value }

/-- The YAML value underneath one patches entry, as the generic unmarshal
callback of patchWrapper sees it: a mapping decodes into the patchPath
struct field by field (a missing key leaves the empty string), a bare
scalar fails the struct decode but succeeds as a string, and anything
else fails both decodes. -/
inductive PatchNode where
  | mapping (path : String) (patchContent : String)
  | scalar (s : String)
  | invalid (e : String)
deriving DecidableEq

/-- UnmarshalYAML of patchWrapper: decode as a patchPath struct; when that
fails, decode as a bare string and use it as the path (the deprecation
warning is a logging concern, not modelled). -/
def patchWrapper.unmarshalYAML : PatchNode → Except String patchPath
  | PatchNode.mapping p q => Except.ok { Path := p, Patch := q }
  | PatchNode.scalar s => Except.ok { Path := s, Patch := "" }
  | PatchNode.invalid e => Except.error e

/-! ## The filesystem and parser collaborators -/

/-- The directory bit of an os.FileMode: the resolver only asks IsDir. -/
inductive FMode where
  | dir
  | file
deriving DecidableEq

/-- The world the resolver runs against: os.Stat, ioutil.ReadFile and
yaml.Unmarshal, each as an abstract map on paths or bytes. File contents
are kept opaque. -/
structure FS where
  stat : String → Option FMode
  readFile : String → Except String String
  unmarshal : String → Except String kustomization

/-- pathExistsLocally: an absolute filename is probed as is, a relative
one is joined with the working directory; the stat result carries the
mode. none plays the role of the (false, 0) return. -/
def pathExistsLocally (fs : FS) (filename : String) (workingDir : String) : Option FMode :=
  let path := if filepathIsAbs filename then filename else filepathJoin workingDir filename
  fs.stat path

/-- findKustomizationConfig: the first accepted filename that exists
locally in dir, joined with dir; an error when none does. -/
def findKustomizationConfig (fs : FS) (dir : String) : Except String String :=
  match kustomizeFilePaths.find? (fun candidate => (pathExistsLocally fs candidate dir).isSome) with
  | some candidate => Except.ok (filepathJoin dir candidate)
  | none => Except.error ("no Kustomization configuration found in directory: " ++ dir)

/-- Modelled from the spec: util.AbsolutePaths is outside src. Per the
PathProbe contract and the resolver steps for crds and generators, a
resolved path keeps an absolute path as is and joins a relative one with
the working directory. -/
def absolutePaths (workspace : String) (paths : List String) : List String :=
  paths.map (fun p => if filepathIsAbs p then p else filepathJoin workspace p)

/-- The patchesStrategicMerge loop of the resolver: entries with a
non-empty path contribute the path joined with dir. -/
def strategicMergePatchDeps (dir : String) (patches : List strategicMergePatch) : List String :=
  patches.filterMap (fun patch =>
    if patch.Path ≠ "" then some (filepathJoin dir patch.Path) else none)

/-- The patches loop of the resolver. -/
def patchDeps (dir : String) (patches : List patchPath) : List String :=
  patches.filterMap (fun patch =>
    if patch.Path ≠ "" then some (filepathJoin dir patch.Path) else none)

/-- The patchesJson6902 loop of the resolver. -/
def patchesJSON6902Deps (dir : String) (patches : List patchJSON6902) : List String :=
  patches.filterMap (fun patch =>
    if patch.Path ≠ "" then some (filepathJoin dir patch.Path) else none)

/-- The configMapGenerator loop of the resolver: the files, then the envs
list with the single env appended when it is non-empty. -/
def configMapGeneratorDeps (dir : String) (generators : List configMapGenerator) : List String :=
  generators.flatMap (fun generator =>
    absolutePaths dir generator.Files ++
    absolutePaths dir
      (if generator.Env ≠ "" then generator.Envs ++ [generator.Env] else generator.Envs))

/-- The secretGenerator loop of the resolver, identical in shape. -/
def secretGeneratorDeps (dir : String) (generators : List secretGenerator) : List String :=
  generators.flatMap (fun generator =>
    absolutePaths dir generator.Files ++
    absolutePaths dir
      (if generator.Env ≠ "" then generator.Envs ++ [generator.Env] else generator.Envs))

/-- The candidates loop of the resolver, parameterised by the recursive
call used for directory candidates: a candidate that does not exist
locally is skipped, a local directory is recursed into and its
dependencies appended, a local file contributes its path joined with
dir. -/
def resolveCandidatesAux (recur : String → Except String (List String))
    (fs : FS) (dir : String) : List String → Except String (List String)
  | [] => Except.ok []
  | candidate :: rest =>
    match pathExistsLocally fs candidate dir with
    | none => resolveCandidatesAux recur fs dir rest
    | some FMode.dir =>
      match recur (filepathJoin dir candidate) with
      | Except.error e => Except.error e
      | Except.ok candidateDeps =>
        match resolveCandidatesAux recur fs dir rest with
        | Except.error e => Except.error e
        | Except.ok restDeps => Except.ok (candidateDeps ++ restDeps)
    | some FMode.file =>
      match resolveCandidatesAux recur fs dir rest with
      | Except.error e => Except.error e
      | Except.ok restDeps => Except.ok (filepathJoin dir candidate :: restDeps)

/-- The error used when the recursion depth bound of the embedding is
exhausted; the Go original would recurse without bound there. -/
def recursionLimitMsg : String := "kustomize dependency recursion limit exhausted"

/-- dependenciesForKustomization: locate the config in dir (none found
means a remote reference, yielding no deps and no error), read and
unmarshal it (either failure propagates), then record the config path,
the bases and resources candidates, the strategic merge patches, the
crds, the patches, the json6902 patches and the generator inputs, in the
order of the source. The extra fuel argument bounds the recursion depth
of the embedding. -/
def dependenciesForKustomization (fs : FS) (fuel : Nat) (dir : String) :
    Except String (List String) :=
  match fuel with
  | 0 => Except.error recursionLimitMsg
  | fuel' + 1 =>
    match findKustomizationConfig fs dir with
    | Except.error _ => Except.ok []
    | Except.ok path =>
      match fs.readFile path with
      | Except.error e => Except.error e
      | Except.ok buf =>
        match fs.unmarshal buf with
        | Except.error e => Except.error e
        | Except.ok content =>
          match resolveCandidatesAux (fun d => dependenciesForKustomization fs fuel' d)
              fs dir (content.Bases ++ content.Resources) with
          | Except.error e => Except.error e
          | Except.ok candidateDeps =>
            Except.ok (path :: candidateDeps
              ++ strategicMergePatchDeps dir content.PatchesStrategicMerge
              ++ absolutePaths dir content.CRDs
              ++ patchDeps dir content.Patches
              ++ patchesJSON6902Deps dir content.PatchesJSON6902
              ++ configMapGeneratorDeps dir content.ConfigMapGenerator
              ++ secretGeneratorDeps dir content.SecretGenerator)

/-! ## Dependencies aggregation -/

/-- The deployer configuration the embedded operations read: the
configured overlay paths and the extra build args. -/
structure KustomizeDeployer where
  KustomizePaths : List String
  BuildArgs : List String

/-- The loop of Dependencies: resolve every configured overlay path,
aborting on the first failure, and concatenate the results. -/
def dependenciesLoop (fs : FS) (fuel : Nat) : List String → Except String (List String)
  | [] => Except.ok []
  | p :: rest =>
    match dependenciesForKustomization fs fuel p with
    | Except.error e => Except.error e
    | Except.ok d =>
      match dependenciesLoop fs fuel rest with
      | Except.error e => Except.error e
      | Except.ok ds => Except.ok (d ++ ds)

/-- Lexicographic comparison of character lists, the order Go sort uses
on the (ASCII) path strings. -/
def charListLe : List Char → List Char → Bool
  | [], _ => true
  | _ :: _, [] => false
  | a :: as, b :: bs => if a = b then charListLe as bs else decide (a < b)

/-- Lexicographic comparison of strings. -/
def stringLe (a b : String) : Bool := charListLe a.toList b.toList

/-- Modelled from the spec: the string set used by Dependencies
(newStringSet, insert, toList) is outside src; the spec says Dependencies
returns a sorted deduplicated list, so toList over the inserted elements
is the deduplicated list in lexicographically sorted order. -/
def stringSetToList (l : List String) : List String :=
  List.insertionSort (fun a b => stringLe a b = true) l.dedup

/-- Dependencies: the string set fed by the resolver output of every
configured overlay path, rendered as a list; a resolver failure at any
path aborts the call. -/
def KustomizeDeployer.Dependencies (k : KustomizeDeployer) (fs : FS) (fuel : Nat) :
    Except String (List String) :=
  match dependenciesLoop fs fuel k.KustomizePaths with
  | Except.error e => Except.error e
  | Except.ok deps => Except.ok (stringSetToList deps)

/-! ## The render pipeline and the deploy controller

The external collaborators (the kustomize process, the manifest-list
utilities, kubectl and the event sink) are modelled as pure functions in
a bundle; every call is also recorded in a trace so that claims about
which steps run can be stated. A manifest list is an opaque list of raw
output chunks. -/

/-- One observable call of the pipeline. -/
inductive Event where
  | evCheckVersion
  | evGetDebugHelpersRegistry
  | evRender (args : List String)
  | evReplaceImages
  | evTransform
  | evSetLabels
  | evCollectNamespaces
  | evApply
  | evDelete
  | evDeployInProgress
  | evDeployFailed
  | evDeployComplete
  | evDeployInfo
deriving DecidableEq

/-- A trace of collaborator calls and lifecycle events, in order. -/
abbrev Trace := List Event

/-- The collaborator bundle: each field gives the pure outcome of the
corresponding external call. applyManifests returns none on success. -/
structure Collab where
  debugHelpersRegistry : Except String String
  runCmdOut : List String → Except String String
  replaceImages : List String → Except String (List String)
  transforms : List (List String → Except String (List String))
  setLabels : List String → Except String (List String)
  collectNamespaces : List String → Except String (List String)
  applyManifests : List String → Option String

/-- buildCommandArgs: build, then each extra build arg split on spaces,
then the overlay path when non-empty. -/
def buildCommandArgs (buildArgs : List String) (kustomizePath : String) : List String :=
  let args := ["build"]
  let args :=
    if buildArgs.length > 0 then
      args ++ buildArgs.flatMap (fun v => splitOnChar ' ' v)
    else args
  if kustomizePath.length > 0 then args ++ [kustomizePath] else args

/-- The loop of readManifests: run the kustomize build for each overlay
path in order; a failure aborts, an empty output is skipped, a non-empty
output is appended to the manifest list. -/
def readManifestsLoop (c : Collab) (buildArgs : List String) (tr : Trace)
    (manifests : List String) : List String → Trace × Except String (List String)
  | [] => (tr, Except.ok manifests)
  | p :: rest =>
    let args := buildCommandArgs buildArgs p
    let tr := tr ++ [Event.evRender args]
    match c.runCmdOut args with
    | Except.error e => (tr, Except.error ("kustomize build: " ++ e))
    | Except.ok out =>
      if out.length = 0 then readManifestsLoop c buildArgs tr manifests rest
      else readManifestsLoop c buildArgs tr (manifests ++ [out]) rest

/-- readManifests over the configured overlay paths. -/
def KustomizeDeployer.readManifests (k : KustomizeDeployer) (c : Collab) (tr : Trace) :
    Trace × Except String (List String) :=
  readManifestsLoop c k.BuildArgs tr [] k.KustomizePaths

/-- The manifestTransforms loop of renderManifests: each registered
transform is applied in order; a failure aborts with a wrapped error. -/
def transformsLoop (tr : Trace) (manifests : List String) :
    List (List String → Except String (List String)) → Trace × Except String (List String)
  | [] => (tr, Except.ok manifests)
  | t :: rest =>
    let tr := tr ++ [Event.evTransform]
    match t manifests with
    | Except.error e => (tr, Except.error ("unable to transform manifests: " ++ e))
    | Except.ok ms => transformsLoop tr ms rest

/-- renderManifests: check the client version (logged only), fetch the
debug helpers registry (failure is fatal), read the manifests, stop with
an empty list when nothing was produced, otherwise replace images, apply
the registered transforms and set the labels. -/
def KustomizeDeployer.renderManifests (k : KustomizeDeployer) (c : Collab) (tr : Trace) :
    Trace × Except String (List String) :=
  let tr := tr ++ [Event.evCheckVersion]
  let tr := tr ++ [Event.evGetDebugHelpersRegistry]
  match c.debugHelpersRegistry with
  | Except.error e => (tr, Except.error ("retrieving debug helpers registry: " ++ e))
  | Except.ok _ =>
    match k.readManifests c tr with
    | (tr, Except.error e) => (tr, Except.error ("reading manifests: " ++ e))
    | (tr, Except.ok manifests) =>
      if manifests.length = 0 then (tr, Except.ok [])
      else
        let tr := tr ++ [Event.evReplaceImages]
        match c.replaceImages manifests with
        | Except.error e => (tr, Except.error ("replacing images in manifests: " ++ e))
        | Except.ok ms =>
          match transformsLoop tr ms c.transforms with
          | (tr, Except.error e) => (tr, Except.error e)
          | (tr, Except.ok ms2) =>
            let tr := tr ++ [Event.evSetLabels]
            (tr, c.setLabels ms2)

/-- The outcome Deploy reports. -/
inductive Result where
  | success (namespaces : List String)
  | failure (err : String)
deriving DecidableEq

/-- Deploy: render the manifests (failure reports a deploy failure); with
zero manifests report success with no namespaces; otherwise collect the
namespaces (failure is only an info event and leaves them empty), apply
via kubectl (failure reports a deploy failure) and report success with
the collected namespaces. -/
def KustomizeDeployer.Deploy (k : KustomizeDeployer) (c : Collab) : Trace × Result :=
  let tr : Trace := [Event.evDeployInProgress]
  match k.renderManifests c tr with
  | (tr, Except.error e) => (tr ++ [Event.evDeployFailed], Result.failure e)
  | (tr, Except.ok manifests) =>
    if manifests.length = 0 then (tr ++ [Event.evDeployComplete], Result.success [])
    else
      let tr := tr ++ [Event.evCollectNamespaces]
      let (tr, namespaces) :=
        match c.collectNamespaces manifests with
        | Except.error _ => (tr ++ [Event.evDeployInfo], ([] : List String))
        | Except.ok ns => (tr, ns)
      let tr := tr ++ [Event.evApply]
      match c.applyManifests manifests with
      | some e => (tr ++ [Event.evDeployFailed], Result.failure e)
      | none => (tr ++ [Event.evDeployComplete], Result.success namespaces)

/-! ## The outward helper predicates -/

/-- IsKustomizationBase: the directory part of the path equals the
basePath constant. -/
def IsKustomizationBase (path : String) : Bool :=
  filepathDir path == basePath

/-- IsKustomizationPath: the base filename of the path is one of the
accepted kustomization config filenames. -/
def IsKustomizationPath (path : String) : Bool :=
  kustomizeFilePaths.contains (filepathBase path)

/-! ## Claim-side definitions

These follow the words of the specification claims; they are compared
with the source-derived definitions above. -/

/-- The styles the source stores in the Path field: plain, double quoted
or single quoted. -/
abbrev isPathStyle (n : YamlNode) : Prop :=
  n.style = 0 ∨ n.style = doubleQuotedStyle ∨ n.style = singleQuotedStyle

/-- Written from the words of C3: one step over the combined candidate
list, carrying the set built so far; a candidate that does not exist
locally is skipped, a local directory is recursed into and its set
unioned, a local file has its path joined with the current directory
added. -/
def specCandidateStep (fs : FS) (fuel : Nat) (dir : String)
    (acc : Except String (List String)) (candidate : String) : Except String (List String) :=
  match acc with
  | Except.error e => Except.error e
  | Except.ok s =>
    match pathExistsLocally fs candidate dir with
    | none => Except.ok s
    | some FMode.dir =>
      match dependenciesForKustomization fs fuel (filepathJoin dir candidate) with
      | Except.error e => Except.error e
      | Except.ok r => Except.ok (s ++ r)
    | some FMode.file => Except.ok (s ++ [filepathJoin dir candidate])

/-- Written from the words of C3: process the concatenation of bases
followed by resources as one candidate list, in order. -/
def specProcessCandidates (fs : FS) (fuel : Nat) (dir : String)
    (candidates : List String) : Except String (List String) :=
  candidates.foldl (specCandidateStep fs fuel dir) (Except.ok [])

/-- Written from the words of C6: the resolved paths of all files entries,
then the resolved paths of the effective environment-file list, which is
envs with env appended exactly once when env is non-empty and nothing
appended when env is empty. -/
def specGeneratorFiles (dir : String) (files : List String) (env : String)
    (envs : List String) : List String :=
  absolutePaths dir files ++
  absolutePaths dir (envs ++ (if env ≠ "" then [env] else []))

/-! ## Concrete fixtures used by the per-claim witnesses and
counterexamples -/

/-- Fixture for the C1 counterexample: one overlay whose only
strategicMergePatches entry came from a double quoted scalar. -/
def c1FS : FS :=
  { stat := fun p => if p = "overlay/kustomization.yaml" then some FMode.file else none
    readFile := fun p =>
      if p = "overlay/kustomization.yaml" then Except.ok "c1doc" else Except.error "unreadable"
    unmarshal := fun buf =>
      if buf = "c1doc" then
        Except.ok { emptyKustomization with
          PatchesStrategicMerge :=
            [strategicMergePatch.unmarshalYAML { style := doubleQuotedStyle, value := "patch.yaml" }] }
      else Except.error "bad yaml" }

/-- The parsed config of the C1 witness fixture: one plain scalar
strategicMergePatches entry. -/
def c1wContent : kustomization :=
  { emptyKustomization with
    PatchesStrategicMerge :=
      [strategicMergePatch.unmarshalYAML { style := 0, value := "patch.yaml" }] }

/-- Fixture for the C1 witness. -/
def c1wFS : FS :=
  { stat := fun p => if p = "overlay/kustomization.yaml" then some FMode.file else none
    readFile := fun p =>
      if p = "overlay/kustomization.yaml" then Except.ok "c1wdoc" else Except.error "unreadable"
    unmarshal := fun buf =>
      if buf = "c1wdoc" then Except.ok c1wContent else Except.error "bad yaml" }

/-- Fixture for the C2 witness: an overlay whose sub directory holds a
config file that fails to unmarshal. -/
def c2wFS : FS :=
  { stat := fun p =>
      if p = "overlay/kustomization.yaml" then some FMode.file
      else if p = "overlay/sub" then some FMode.dir
      else if p = "overlay/sub/kustomization.yaml" then some FMode.file
      else none
    readFile := fun p =>
      if p = "overlay/kustomization.yaml" then Except.ok "good"
      else if p = "overlay/sub/kustomization.yaml" then Except.ok "mangled"
      else Except.error ("read " ++ p)
    unmarshal := fun buf =>
      if buf = "good" then Except.ok { emptyKustomization with Resources := ["sub"] }
      else Except.error "bad yaml" }

/-- Fixture for the C3 witness: a base directory, a local file resource
and a missing (remote) resource. -/
def c3wFS : FS :=
  { stat := fun p =>
      if p = "overlay/kustomization.yaml" then some FMode.file
      else if p = "overlay/base" then some FMode.dir
      else if p = "overlay/base/kustomization.yaml" then some FMode.file
      else if p = "overlay/deployment.yaml" then some FMode.file
      else none
    readFile := fun p =>
      if p = "overlay/kustomization.yaml" then Except.ok "root"
      else if p = "overlay/base/kustomization.yaml" then Except.ok "basedoc"
      else Except.error ("read " ++ p)
    unmarshal := fun buf =>
      if buf = "root" then
        Except.ok { emptyKustomization with
          Bases := ["base"], Resources := ["deployment.yaml", "remote"] }
      else if buf = "basedoc" then Except.ok emptyKustomization
      else Except.error "bad yaml" }

/-- Fixture for the C4 counterexample: one patches entry decoded from a
mapping carrying both a path and inline content. -/
def c4FS : FS :=
  { stat := fun p => if p = "overlay/kustomization.yaml" then some FMode.file else none
    readFile := fun p =>
      if p = "overlay/kustomization.yaml" then Except.ok "c4doc" else Except.error "unreadable"
    unmarshal := fun buf =>
      if buf = "c4doc" then
        Except.ok { emptyKustomization with Patches := [{ Path := "a.yaml", Patch := "x: y" }] }
      else Except.error "bad yaml" }

/-- Fixture for the C5 witness: two overlays sharing one absolute crd
dependency, so that deduplication is visible. -/
def c5wFS : FS :=
  { stat := fun p =>
      if p = "o1/kustomization.yaml" then some FMode.file
      else if p = "o2/kustomization.yaml" then some FMode.file
      else none
    readFile := fun p =>
      if p = "o1/kustomization.yaml" then Except.ok "d1"
      else if p = "o2/kustomization.yaml" then Except.ok "d2"
      else Except.error ("read " ++ p)
    unmarshal := fun buf =>
      if buf = "d1" ∨ buf = "d2" then
        Except.ok { emptyKustomization with CRDs := ["/crd.yaml"] }
      else Except.error "bad yaml" }

/-- The deployer of the C5 witness. -/
def c5wDeployer : KustomizeDeployer := { KustomizePaths := ["o1", "o2"], BuildArgs := [] }

/-- Fixture for the C6 witness: a config map generator with files, envs
and a non-empty env, and a secret generator with an empty env. -/
def c6wFS : FS :=
  { stat := fun p => if p = "overlay/kustomization.yaml" then some FMode.file else none
    readFile := fun p =>
      if p = "overlay/kustomization.yaml" then Except.ok "c6doc" else Except.error "unreadable"
    unmarshal := fun buf =>
      if buf = "c6doc" then
        Except.ok { emptyKustomization with
          ConfigMapGenerator :=
            [{ Files := ["cfg.properties"], Env := "one.env", Envs := ["a.env", "b.env"] }],
          SecretGenerator := [{ Files := [], Env := "", Envs := ["s.env"] }] }
      else Except.error "bad yaml" }

/-- The collaborators of the C7 witness: both overlays render to empty
output. -/
def c7wCollab : Collab :=
  { debugHelpersRegistry := Except.ok "reg"
    runCmdOut := fun args =>
      if args = ["build", "p1"] ∨ args = ["build", "p2"] then Except.ok ""
      else Except.error "unexpected"
    replaceImages := fun ms => Except.ok ms
    transforms := []
    setLabels := fun ms => Except.ok ms
    collectNamespaces := fun _ => Except.ok []
    applyManifests := fun _ => none }

/-- The deployer of the C7 and C8 witnesses. -/
def c7wDeployer : KustomizeDeployer := { KustomizePaths := ["p1", "p2"], BuildArgs := [] }

/-- The collaborators of the C8 witness: one overlay renders to a
manifest, namespace collection fails, apply succeeds. -/
def c8wCollab : Collab :=
  { debugHelpersRegistry := Except.ok "reg"
    runCmdOut := fun args =>
      if args = ["build", "p1"] then Except.ok "m1"
      else if args = ["build", "p2"] then Except.ok ""
      else Except.error "unexpected"
    replaceImages := fun ms => Except.ok ms
    transforms := []
    setLabels := fun ms => Except.ok ms
    collectNamespaces := fun _ => Except.error "no namespaces"
    applyManifests := fun _ => none }

/-- Fixture for the C10 witness: an absolute resource path that exists as
a file. -/
def c10wFS : FS :=
  { stat := fun p => if p = "/abs/r.yaml" then some FMode.file else none
    readFile := fun _ => Except.error "unused"
    unmarshal := fun _ => Except.error "unused" }

/-! ## Helper lemmas -/

/-- Unfolding of the resolver at positive fuel. -/
theorem dependenciesForKustomization_succ (fs : FS) (fuel : Nat) (dir : String) :
    dependenciesForKustomization fs (fuel + 1) dir =
      match findKustomizationConfig fs dir with
      | Except.error _ => Except.ok []
      | Except.ok path =>
        match fs.readFile path with
        | Except.error e => Except.error e
        | Except.ok buf =>
          match fs.unmarshal buf with
          | Except.error e => Except.error e
          | Except.ok content =>
            match resolveCandidatesAux (fun d => dependenciesForKustomization fs fuel d)
                fs dir (content.Bases ++ content.Resources) with
            | Except.error e => Except.error e
            | Except.ok candidateDeps =>
              Except.ok (path :: candidateDeps
                ++ strategicMergePatchDeps dir content.PatchesStrategicMerge
                ++ absolutePaths dir content.CRDs
                ++ patchDeps dir content.Patches
                ++ patchesJSON6902Deps dir content.PatchesJSON6902
                ++ configMapGeneratorDeps dir content.ConfigMapGenerator
                ++ secretGeneratorDeps dir content.SecretGenerator) := rfl

/-- The strategic merge patch segment, written over the scalar nodes the
entries were unmarshalled from. -/
theorem smpDeps_map (dir : String) : ∀ nodes : List YamlNode,
    strategicMergePatchDeps dir (nodes.map strategicMergePatch.unmarshalYAML) =
      nodes.filterMap (fun n =>
        if isPathStyle n ∧ n.value ≠ "" then some (filepathJoin dir n.value) else none)
  | [] => rfl
  | n :: ns => by
    have ih := smpDeps_map dir ns
    by_cases hps : isPathStyle n
    · by_cases hv : n.value = "" <;>
        simp [strategicMergePatchDeps, strategicMergePatch.unmarshalYAML, if_pos hps,
          hps, hv, List.filterMap_cons, ih, strategicMergePatchDeps] at ih ⊢ <;>
        simp [ih]
    · simp [strategicMergePatchDeps, strategicMergePatch.unmarshalYAML, if_neg hps,
        hps, List.filterMap_cons] at ih ⊢
      simp [ih]

/-- An error of the candidates loop is an error of the recursive call on
one of the probed directories. -/
theorem resolveCandidatesAux_error (recur : String → Except String (List String))
    (fs : FS) (dir : String) : ∀ (l : List String) (e : String),
    resolveCandidatesAux recur fs dir l = Except.error e →
    ∃ d, recur d = Except.error e
  | [], e => by simp [resolveCandidatesAux]
  | candidate :: rest, e => by
    intro h
    rw [resolveCandidatesAux] at h
    cases hpe : pathExistsLocally fs candidate dir with
    | none =>
      rw [hpe] at h
      exact resolveCandidatesAux_error recur fs dir rest e h
    | some mode =>
      cases mode with
      | dir =>
        rw [hpe] at h
        cases hr : recur (filepathJoin dir candidate) with
        | error e2 =>
          rw [hr] at h
          cases h
          exact ⟨filepathJoin dir candidate, hr⟩
        | ok ds =>
          rw [hr] at h
          cases hrest : resolveCandidatesAux recur fs dir rest with
          | error e2 =>
            rw [hrest] at h
            cases h
            exact resolveCandidatesAux_error recur fs dir rest e hrest
          | ok rds => rw [hrest] at h; cases h
      | file =>
        rw [hpe] at h
        cases hrest : resolveCandidatesAux recur fs dir rest with
        | error e2 =>
          rw [hrest] at h
          cases h
          exact resolveCandidatesAux_error recur fs dir rest e hrest
        | ok rds => rw [hrest] at h; cases h

/-! ## C1 -/

/-- C1 counterexample: a strategicMergePatches entry written as a double
quoted scalar is classified as a path, not as inline content, and its
value does appear, joined with the overlay directory, in the dependency
set. -/
theorem c1_counterexample :
    strategicMergePatch.unmarshalYAML { style := doubleQuotedStyle, value := "patch.yaml" } =
      { Path := "patch.yaml", Patch := "" } ∧
    dependenciesForKustomization c1FS 1 "overlay" =
      Except.ok ["overlay/kustomization.yaml", "overlay/patch.yaml"] :=
  ⟨rfl, rfl⟩

/-- C1 (amended): classification depends only on the scalar style, but
the path styles are plain, double quoted and single quoted; any other
style (literal, folded, flow, tagged) is inline content. A path-style
entry with a non-empty value appears in the dependency set joined with
the overlay directory; the strategic merge segment contains exactly the
path-style non-empty values, so inline entries contribute nothing. -/
theorem c1_amended (fs : FS) (fuel : Nat) (dir cfgPath buf : String)
    (content : kustomization) (nodes : List YamlNode) (cds : List String)
    (h1 : findKustomizationConfig fs dir = Except.ok cfgPath)
    (h2 : fs.readFile cfgPath = Except.ok buf)
    (h3 : fs.unmarshal buf = Except.ok content)
    (hsmp : content.PatchesStrategicMerge = nodes.map strategicMergePatch.unmarshalYAML)
    (hc : resolveCandidatesAux (fun d => dependenciesForKustomization fs fuel d) fs dir
        (content.Bases ++ content.Resources) = Except.ok cds) :
    (∀ node : YamlNode, isPathStyle node →
       strategicMergePatch.unmarshalYAML node = { Path := node.value, Patch := "" }) ∧
    (∀ node : YamlNode, ¬ isPathStyle node →
       strategicMergePatch.unmarshalYAML node = { Path := "", Patch := node.value }) ∧
    strategicMergePatchDeps dir content.PatchesStrategicMerge =
      nodes.filterMap (fun n =>
        if isPathStyle n ∧ n.value ≠ "" then some (filepathJoin dir n.value) else none) ∧
    ∃ deps, dependenciesForKustomization fs (fuel + 1) dir = Except.ok deps ∧
      ∀ n ∈ nodes, isPathStyle n → n.value ≠ "" → filepathJoin dir n.value ∈ deps := by
  refine ⟨?_, ?_, ?_, ?_⟩
  · intro node h
    simp only [strategicMergePatch.unmarshalYAML]
    rw [if_pos h]
  · intro node h
    simp only [strategicMergePatch.unmarshalYAML]
    rw [if_neg h]
  · rw [hsmp]; exact smpDeps_map dir nodes
  · refine ⟨cfgPath :: cds
      ++ strategicMergePatchDeps dir content.PatchesStrategicMerge
      ++ absolutePaths dir content.CRDs
      ++ patchDeps dir content.Patches
      ++ patchesJSON6902Deps dir content.PatchesJSON6902
      ++ configMapGeneratorDeps dir content.ConfigMapGenerator
      ++ secretGeneratorDeps dir content.SecretGenerator, ?_, ?_⟩
    · rw [dependenciesForKustomization_succ]
      simp only [h1, h2, h3, hc]
    · intro n hn hps hv
      have hmem : filepathJoin dir n.value ∈
          strategicMergePatchDeps dir content.PatchesStrategicMerge := by
        rw [hsmp, smpDeps_map]
        exact List.mem_filterMap.2 ⟨n, hn, by simp [hps, hv]⟩
      simp only [List.mem_cons, List.mem_append]
      tauto

/-- C1 witness: the amended theorem applied to a concrete overlay with a
plain scalar entry. -/
theorem c1_amended_witness :
    dependenciesForKustomization c1wFS 1 "overlay" =
      Except.ok ["overlay/kustomization.yaml", "overlay/patch.yaml"] ∧
    "overlay/patch.yaml" ∈ ["overlay/kustomization.yaml", "overlay/patch.yaml"] := by
  have h := c1_amended c1wFS 0 "overlay" "overlay/kustomization.yaml" "c1wdoc" c1wContent
    [{ style := 0, value := "patch.yaml" }] [] rfl rfl rfl rfl rfl
  obtain ⟨-, -, -, deps, hdeps, hmem⟩ := h
  have hconc : dependenciesForKustomization c1wFS 1 "overlay" =
      Except.ok ["overlay/kustomization.yaml", "overlay/patch.yaml"] := rfl
  have hd : deps = ["overlay/kustomization.yaml", "overlay/patch.yaml"] := by
    rw [hconc] at hdeps
    exact (Except.ok.inj hdeps).symm
  refine ⟨hconc, ?_⟩
  have := hmem { style := 0, value := "patch.yaml" } (by simp) (Or.inl rfl) (by decide)
  rw [hd] at this
  exact this

/-! ## C2 -/

/-- Unfolding of the resolver at zero fuel. -/
theorem dependenciesForKustomization_zero (fs : FS) (dir : String) :
    dependenciesForKustomization fs 0 dir = Except.error recursionLimitMsg := rfl

/-- Any error of the resolver that is not the fuel artefact of the
embedding originates from reading or unmarshalling a config file that
findKustomizationConfig located. -/
theorem depForK_error_origin (fs : FS) : ∀ (fuel : Nat) (dir e : String),
    dependenciesForKustomization fs fuel dir = Except.error e →
    e ≠ recursionLimitMsg →
    ∃ d p, findKustomizationConfig fs d = Except.ok p ∧
      (fs.readFile p = Except.error e ∨
       ∃ buf, fs.readFile p = Except.ok buf ∧ fs.unmarshal buf = Except.error e)
  | 0, dir, e => by
    intro h hne
    rw [dependenciesForKustomization_zero] at h
    cases h
    exact absurd rfl hne
  | fuel + 1, dir, e => by
    intro h hne
    rw [dependenciesForKustomization_succ] at h
    cases hfind : findKustomizationConfig fs dir with
    | error msg =>
      simp only [hfind] at h
      exact Except.noConfusion h
    | ok path =>
      simp only [hfind] at h
      cases hread : fs.readFile path with
      | error e2 =>
        simp only [hread] at h
        obtain rfl : e2 = e := Except.error.inj h
        exact ⟨dir, path, hfind, Or.inl hread⟩
      | ok buf =>
        simp only [hread] at h
        cases hun : fs.unmarshal buf with
        | error e2 =>
          simp only [hun] at h
          obtain rfl : e2 = e := Except.error.inj h
          exact ⟨dir, path, hfind, Or.inr ⟨buf, hread, hun⟩⟩
        | ok content =>
          simp only [hun] at h
          cases hres : resolveCandidatesAux (fun d => dependenciesForKustomization fs fuel d)
              fs dir (content.Bases ++ content.Resources) with
          | error e2 =>
            simp only [hres] at h
            obtain rfl : e2 = e := Except.error.inj h
            obtain ⟨d, hd⟩ := resolveCandidatesAux_error _ fs dir _ e2 hres
            exact depForK_error_origin fs fuel d e2 hd hne
          | ok cds =>
            simp only [hres] at h
            exact Except.noConfusion h

/-- C2: a directory in which none of the accepted kustomization filenames
exists locally resolves to the empty set with no error, at any recursion
depth; and an error (other than the recursion bound artefact of the
embedding) is returned only when a located config file cannot be read or
fails to unmarshal, the error propagating to the caller. -/
theorem c2_remote_skip_and_error_origin (fs : FS) :
    (∀ dir fuel, (∀ c ∈ kustomizeFilePaths, pathExistsLocally fs c dir = none) →
       dependenciesForKustomization fs (fuel + 1) dir = Except.ok []) ∧
    (∀ fuel dir e, dependenciesForKustomization fs fuel dir = Except.error e →
       e ≠ recursionLimitMsg →
       ∃ d p, findKustomizationConfig fs d = Except.ok p ∧
         (fs.readFile p = Except.error e ∨
          ∃ buf, fs.readFile p = Except.ok buf ∧ fs.unmarshal buf = Except.error e)) := by
  constructor
  · intro dir fuel h
    have hnone : kustomizeFilePaths.find?
        (fun c => (pathExistsLocally fs c dir).isSome) = none := by
      apply List.find?_eq_none.2
      intro c hc
      simp [h c hc]
    rw [dependenciesForKustomization_succ]
    simp [findKustomizationConfig, hnone]
  · intro fuel dir e h hne
    exact depForK_error_origin fs fuel dir e h hne

/-- C2 witness: a directory with no kustomization config resolves to the
empty set without error. -/
theorem c2_witness :
    dependenciesForKustomization c2wFS 1 "elsewhere" = Except.ok [] :=
  (c2_remote_skip_and_error_origin c2wFS).1 "elsewhere" 0 (by decide)

/-! ## C3 -/

/-- The claim-side fold short-circuits on an error accumulator. -/
theorem specProcess_foldl_error (fs : FS) (fuel : Nat) (dir : String) :
    ∀ (l : List String) (e : String),
    l.foldl (specCandidateStep fs fuel dir) (Except.error e) = Except.error e
  | [], _ => rfl
  | c :: rest, e => by
    rw [List.foldl_cons]
    simp only [specCandidateStep]
    exact specProcess_foldl_error fs fuel dir rest e

/-- The claim-side fold agrees with the candidates loop of the source,
for any starting accumulator. -/
theorem specProcess_foldl_ok (fs : FS) (fuel : Nat) (dir : String) :
    ∀ (l : List String) (s : List String),
    l.foldl (specCandidateStep fs fuel dir) (Except.ok s) =
      match resolveCandidatesAux (fun d => dependenciesForKustomization fs fuel d) fs dir l with
      | Except.error e => Except.error e
      | Except.ok r => Except.ok (s ++ r)
  | [], s => by simp [resolveCandidatesAux]
  | c :: rest, s => by
    rw [List.foldl_cons]
    simp only [specCandidateStep]
    rw [resolveCandidatesAux]
    cases hpe : pathExistsLocally fs c dir with
    | none =>
      simp only [hpe]
      exact specProcess_foldl_ok fs fuel dir rest s
    | some mode =>
      cases mode with
      | dir =>
        simp only [hpe]
        cases hr : dependenciesForKustomization fs fuel (filepathJoin dir c) with
        | error e =>
          simp only [hr]
          exact specProcess_foldl_error fs fuel dir rest e
        | ok ds =>
          simp only [hr]
          rw [specProcess_foldl_ok fs fuel dir rest (s ++ ds)]
          cases hrest : resolveCandidatesAux (fun d => dependenciesForKustomization fs fuel d)
              fs dir rest with
          | error e => simp [hrest]
          | ok r => simp [hrest]
      | file =>
        simp only [hpe]
        rw [specProcess_foldl_ok fs fuel dir rest (s ++ [filepathJoin dir c])]
        cases hrest : resolveCandidatesAux (fun d => dependenciesForKustomization fs fuel d)
            fs dir rest with
        | error e => simp [hrest]
        | ok r => simp [hrest]

/-- C3: with a located, readable, well-formed config, the resolver output
is the config path followed by the claim-side processing of the
concatenation of bases and resources as one ordered candidate list (skip
non-local entries, recurse into local directories and union, add local
files joined with the current directory), followed by the remaining
segments. -/
theorem c3_candidate_processing (fs : FS) (fuel : Nat) (dir cfgPath buf : String)
    (content : kustomization)
    (h1 : findKustomizationConfig fs dir = Except.ok cfgPath)
    (h2 : fs.readFile cfgPath = Except.ok buf)
    (h3 : fs.unmarshal buf = Except.ok content) :
    dependenciesForKustomization fs (fuel + 1) dir =
      match specProcessCandidates fs fuel dir (content.Bases ++ content.Resources) with
      | Except.error e => Except.error e
      | Except.ok candidateDeps =>
        Except.ok (cfgPath :: candidateDeps
          ++ strategicMergePatchDeps dir content.PatchesStrategicMerge
          ++ absolutePaths dir content.CRDs
          ++ patchDeps dir content.Patches
          ++ patchesJSON6902Deps dir content.PatchesJSON6902
          ++ configMapGeneratorDeps dir content.ConfigMapGenerator
          ++ secretGeneratorDeps dir content.SecretGenerator) := by
  rw [dependenciesForKustomization_succ]
  simp only [h1, h2, h3]
  rw [specProcessCandidates, specProcess_foldl_ok]
  cases hres : resolveCandidatesAux (fun d => dependenciesForKustomization fs fuel d) fs dir
      (content.Bases ++ content.Resources) with
  | error e => simp [hres]
  | ok cds => simp [hres]

/-- C3 witness: the theorem applied to a concrete overlay with a base
directory, a local file resource and a missing remote resource. -/
theorem c3_witness :
    dependenciesForKustomization c3wFS 2 "overlay" =
      Except.ok ["overlay/kustomization.yaml", "overlay/base/kustomization.yaml",
        "overlay/deployment.yaml"] :=
  (c3_candidate_processing c3wFS 1 "overlay" "overlay/kustomization.yaml" "root"
    { emptyKustomization with Bases := ["base"], Resources := ["deployment.yaml", "remote"] }
    rfl rfl rfl).trans rfl

/-! ## C6 -/

/-- The configMapGenerator segment matches the claim-side description of
the generator file lists. -/
theorem cmGenDeps_spec (dir : String) : ∀ gens : List configMapGenerator,
    configMapGeneratorDeps dir gens =
      gens.flatMap (fun g => specGeneratorFiles dir g.Files g.Env g.Envs)
  | [] => rfl
  | g :: gs => by
    have ih := cmGenDeps_spec dir gs
    simp only [configMapGeneratorDeps, List.flatMap_cons] at ih ⊢
    rw [ih]
    congr 2
    by_cases h : g.Env = "" <;> simp [specGeneratorFiles, h]

/-- The secretGenerator segment matches the claim-side description of the
generator file lists. -/
theorem secGenDeps_spec (dir : String) : ∀ gens : List secretGenerator,
    secretGeneratorDeps dir gens =
      gens.flatMap (fun g => specGeneratorFiles dir g.Files g.Env g.Envs)
  | [] => rfl
  | g :: gs => by
    have ih := secGenDeps_spec dir gs
    simp only [secretGeneratorDeps, List.flatMap_cons] at ih ⊢
    rw [ih]
    congr 2
    by_cases h : g.Env = "" <;> simp [specGeneratorFiles, h]

/-- C6: for every configMapGenerator and secretGenerator entry, the
resolver adds the resolved paths of all files entries, then the resolved
paths of the effective environment-file list, which is envs with env
appended exactly once when env is non-empty and nothing appended when it
is empty. -/
theorem c6_generator_inputs (fs : FS) (fuel : Nat) (dir cfgPath buf : String)
    (content : kustomization) (cds : List String)
    (h1 : findKustomizationConfig fs dir = Except.ok cfgPath)
    (h2 : fs.readFile cfgPath = Except.ok buf)
    (h3 : fs.unmarshal buf = Except.ok content)
    (hc : resolveCandidatesAux (fun d => dependenciesForKustomization fs fuel d) fs dir
        (content.Bases ++ content.Resources) = Except.ok cds) :
    dependenciesForKustomization fs (fuel + 1) dir =
      Except.ok (cfgPath :: cds
        ++ strategicMergePatchDeps dir content.PatchesStrategicMerge
        ++ absolutePaths dir content.CRDs
        ++ patchDeps dir content.Patches
        ++ patchesJSON6902Deps dir content.PatchesJSON6902
        ++ content.ConfigMapGenerator.flatMap
            (fun g => specGeneratorFiles dir g.Files g.Env g.Envs)
        ++ content.SecretGenerator.flatMap
            (fun g => specGeneratorFiles dir g.Files g.Env g.Envs)) := by
  rw [dependenciesForKustomization_succ]
  simp only [h1, h2, h3, hc]
  rw [cmGenDeps_spec, secGenDeps_spec]

/-- C6 witness: the theorem applied to a concrete overlay with one
generator carrying files, envs and a non-empty env, and one with an
empty env. -/
theorem c6_witness :
    dependenciesForKustomization c6wFS 1 "overlay" =
      Except.ok ["overlay/kustomization.yaml", "overlay/cfg.properties",
        "overlay/a.env", "overlay/b.env", "overlay/one.env", "overlay/s.env"] :=
  (c6_generator_inputs c6wFS 0 "overlay" "overlay/kustomization.yaml" "c6doc"
    { emptyKustomization with
      ConfigMapGenerator :=
        [{ Files := ["cfg.properties"], Env := "one.env", Envs := ["a.env", "b.env"] }],
      SecretGenerator := [{ Files := [], Env := "", Envs := ["s.env"] }] }
    [] rfl rfl rfl rfl).trans rfl

/-! ## C10 -/

/-- C10: an absolute candidate of the combined bases and resources list
is probed on the absolute path as is, but the path recorded for a local
file, and the directory recursed into for a local directory, is the
candidate re-joined under the current overlay directory; the crds and
generator path resolution instead preserves absolute paths. -/
theorem c10_absolute_candidates (fs : FS) (recur : String → Except String (List String))
    (dir candidate : String) (rest : List String) :
    (filepathIsAbs candidate = true →
       pathExistsLocally fs candidate dir = fs.stat candidate) ∧
    (fs.stat candidate = some FMode.file → filepathIsAbs candidate = true →
       resolveCandidatesAux recur fs dir (candidate :: rest) =
         match resolveCandidatesAux recur fs dir rest with
         | Except.error e => Except.error e
         | Except.ok restDeps => Except.ok (filepathJoin dir candidate :: restDeps)) ∧
    (fs.stat candidate = some FMode.dir → filepathIsAbs candidate = true →
       resolveCandidatesAux recur fs dir (candidate :: rest) =
         match recur (filepathJoin dir candidate) with
         | Except.error e => Except.error e
         | Except.ok ds =>
           match resolveCandidatesAux recur fs dir rest with
           | Except.error e => Except.error e
           | Except.ok restDeps => Except.ok (ds ++ restDeps)) ∧
    (∀ p ps, filepathIsAbs p = true →
       absolutePaths dir (p :: ps) = p :: absolutePaths dir ps) := by
  refine ⟨?_, ?_, ?_, ?_⟩
  · intro h
    simp [pathExistsLocally, h]
  · intro hstat habs
    rw [resolveCandidatesAux]
    simp [pathExistsLocally, habs, hstat]
  · intro hstat habs
    rw [resolveCandidatesAux]
    simp [pathExistsLocally, habs, hstat]
  · intro p ps h
    simp [absolutePaths, h]

/-- C10 witness: the theorem applied to a concrete absolute resource that
exists locally as a file, showing the recorded path is the re-joined one
and differs from the absolute candidate, while absolutePaths keeps it. -/
theorem c10_witness :
    pathExistsLocally c10wFS "/abs/r.yaml" "overlay" = c10wFS.stat "/abs/r.yaml" ∧
    resolveCandidatesAux (fun d => dependenciesForKustomization c10wFS 1 d) c10wFS "overlay"
      ["/abs/r.yaml"] = Except.ok ["overlay/abs/r.yaml"] ∧
    ("overlay/abs/r.yaml" : String) ≠ "/abs/r.yaml" ∧
    absolutePaths "overlay" ["/abs/r.yaml"] = ["/abs/r.yaml"] := by
  have h := c10_absolute_candidates c10wFS
    (fun d => dependenciesForKustomization c10wFS 1 d) "overlay" "/abs/r.yaml" []
  refine ⟨h.1 rfl, ?_, by decide, (h.2.2.2 "/abs/r.yaml" [] rfl).trans rfl⟩
  have h2 := h.2.1 rfl rfl
  rw [h2]
  rfl

/-! ## C4 -/

/-- A filterMap whose function is a guarded some is the filter followed
by the map. -/
theorem filterMapGuard {α β : Type} (p : α → Prop) [DecidablePred p] (f : α → β) :
    ∀ l : List α,
    l.filterMap (fun x => if p x then some (f x) else none) =
      (l.filter (fun x => decide (p x))).map f
  | [] => rfl
  | x :: xs => by
    by_cases h : p x <;>
      simp [List.filterMap_cons, List.filter_cons, h, filterMapGuard p f xs]

/-- C4 counterexample: a patches entry decoded from a mapping with both a
path and a patch key has both fields populated after unmarshalling, and
it still contributes its path to the dependency set even though its
inline-content field is populated. -/
theorem c4_counterexample :
    patchWrapper.unmarshalYAML (PatchNode.mapping "a.yaml" "x: y") =
      Except.ok { Path := "a.yaml", Patch := "x: y" } ∧
    ({ Path := "a.yaml", Patch := "x: y" } : patchPath).Path ≠ "" ∧
    ({ Path := "a.yaml", Patch := "x: y" } : patchPath).Patch ≠ "" ∧
    dependenciesForKustomization c4FS 1 "overlay" =
      Except.ok ["overlay/kustomization.yaml", "overlay/a.yaml"] :=
  ⟨rfl, by decide, by decide, rfl⟩

/-- C4 (amended): a StrategicMergePatch entry never has both fields
non-empty and has exactly one non-empty when the scalar value is
non-empty; a Patch entry decoded from a bare string populates only the
path, while one decoded from a mapping takes both fields verbatim and may
have both or neither populated; and an entry contributes to the
dependency set exactly when its path field is non-empty, regardless of
the inline field. -/
theorem c4_amended :
    (∀ node : YamlNode,
       ((strategicMergePatch.unmarshalYAML node).Path = "" ∨
        (strategicMergePatch.unmarshalYAML node).Patch = "") ∧
       (node.value ≠ "" →
          ((strategicMergePatch.unmarshalYAML node).Path ≠ "" ∧
           (strategicMergePatch.unmarshalYAML node).Patch = "") ∨
          ((strategicMergePatch.unmarshalYAML node).Path = "" ∧
           (strategicMergePatch.unmarshalYAML node).Patch ≠ ""))) ∧
    (∀ s, patchWrapper.unmarshalYAML (PatchNode.scalar s) =
       Except.ok { Path := s, Patch := "" }) ∧
    (∀ p q, patchWrapper.unmarshalYAML (PatchNode.mapping p q) =
       Except.ok { Path := p, Patch := q }) ∧
    (∀ (dir : String) (l : List strategicMergePatch),
       strategicMergePatchDeps dir l =
         (l.filter (fun x => x.Path ≠ "")).map (fun x => filepathJoin dir x.Path)) ∧
    (∀ (dir : String) (l : List patchPath),
       patchDeps dir l =
         (l.filter (fun x => x.Path ≠ "")).map (fun x => filepathJoin dir x.Path)) := by
  refine ⟨?_, fun s => rfl, fun p q => rfl, ?_, ?_⟩
  · intro node
    constructor
    · unfold strategicMergePatch.unmarshalYAML
      split <;> simp
    · intro hv
      unfold strategicMergePatch.unmarshalYAML
      split <;> simp [hv]
  · intro dir l
    exact filterMapGuard (fun x => x.Path ≠ "") (fun x => filepathJoin dir x.Path) l
  · intro dir l
    exact filterMapGuard (fun x => x.Path ≠ "") (fun x => filepathJoin dir x.Path) l

/-- C4 witness: the amended theorem applied to a plain scalar with a
non-empty value. -/
theorem c4_amended_witness :
    ("p.yaml" : String) ≠ "" ∧
    (((strategicMergePatch.unmarshalYAML { style := 0, value := "p.yaml" }).Path ≠ "" ∧
      (strategicMergePatch.unmarshalYAML { style := 0, value := "p.yaml" }).Patch = "") ∨
     ((strategicMergePatch.unmarshalYAML { style := 0, value := "p.yaml" }).Path = "" ∧
      (strategicMergePatch.unmarshalYAML { style := 0, value := "p.yaml" }).Patch ≠ "")) :=
  ⟨by decide, (c4_amended.1 { style := 0, value := "p.yaml" }).2 (by decide)⟩

/-! ## C5 -/

/-- When every configured path resolves, the Dependencies loop returns
the concatenation of the per-path results. -/
theorem dependenciesLoop_ok (fs : FS) (fuel : Nat) (f : String → List String) :
    ∀ paths : List String,
    (∀ p ∈ paths, dependenciesForKustomization fs fuel p = Except.ok (f p)) →
    dependenciesLoop fs fuel paths = Except.ok (paths.flatMap f)
  | [], _ => by simp [dependenciesLoop]
  | p :: rest, h => by
    simp only [dependenciesLoop, h p (List.mem_cons_self p rest),
      dependenciesLoop_ok fs fuel f rest (fun q hq => h q (List.mem_cons_of_mem p hq)),
      List.flatMap_cons]

/-- A resolver failure at any configured path, all earlier paths
resolving, aborts the Dependencies loop with that error. -/
theorem dependenciesLoop_error (fs : FS) (fuel : Nat) (e : String) :
    ∀ (pre : List String) (p : String) (post : List String),
    (∀ q ∈ pre, ∃ l, dependenciesForKustomization fs fuel q = Except.ok l) →
    dependenciesForKustomization fs fuel p = Except.error e →
    dependenciesLoop fs fuel (pre ++ p :: post) = Except.error e
  | [], p, post => by
    intro hpre hp
    simp only [List.nil_append, dependenciesLoop, hp]
  | q :: pre, p, post => by
    intro hpre hp
    obtain ⟨l, hl⟩ := hpre q (List.mem_cons_self q pre)
    have ih := dependenciesLoop_error fs fuel e pre p post
      (fun r hr => hpre r (List.mem_cons_of_mem q hr)) hp
    have ih2 : dependenciesLoop fs fuel (pre.append (p :: post)) = Except.error e := ih
    simp only [List.cons_append, dependenciesLoop, hl, ih, ih2]

/-- Totality of the lexicographic comparison. -/
theorem charListLe_total : ∀ as bs : List Char,
    charListLe as bs = true ∨ charListLe bs as = true
  | [], _ => Or.inl rfl
  | _ :: _, [] => Or.inr rfl
  | a :: as, b :: bs => by
    by_cases h : a = b
    · subst h
      simpa [charListLe] using charListLe_total as bs
    · rcases lt_or_gt_of_ne h with hlt | hgt
      · exact Or.inl (by simp [charListLe, h, hlt])
      · exact Or.inr (by simp [charListLe, Ne.symm h, hgt])

/-- Transitivity of the lexicographic comparison. -/
theorem charListLe_trans : ∀ as bs cs : List Char,
    charListLe as bs = true → charListLe bs cs = true → charListLe as cs = true
  | [], _, _ => fun _ _ => rfl
  | _ :: _, [], _ => by simp [charListLe]
  | _ :: _, _ :: _, [] => by intro h1 h2; simp [charListLe] at h2
  | a :: as, b :: bs, c :: cs => by
    intro h1 h2
    by_cases hab : a = b
    · subst hab
      by_cases hac : a = c
      · subst hac
        simp only [charListLe, if_pos rfl] at h1 h2 ⊢
        exact charListLe_trans as bs cs h1 h2
      · simp only [charListLe, if_pos rfl] at h1
        simp only [charListLe, if_neg hac] at h2 ⊢
        exact h2
    · by_cases hbc : b = c
      · subst hbc
        simp only [charListLe, if_neg hab] at h1 ⊢
        exact h1
      · by_cases hac : a = c
        · subst hac
          simp only [charListLe, if_neg hab, if_neg hbc] at h1 h2
          simp only [decide_eq_true_eq] at h1 h2
          exact absurd (lt_trans h1 h2) (lt_irrefl a)
        · simp only [charListLe, if_neg hab, if_neg hbc, if_neg hac,
            decide_eq_true_eq] at h1 h2 ⊢
          exact lt_trans h1 h2

/-- C5: Dependencies over the configured overlay paths is the sorted
deduplicated union of the resolver output of each path independently; a
resolver failure at any configured path aborts the whole call with that
error; and the set-to-list rendering is sorted, duplicate free and
membership preserving. -/
theorem c5_dependencies_union (k : KustomizeDeployer) (fs : FS) (fuel : Nat) :
    (∀ f : String → List String,
       (∀ p ∈ k.KustomizePaths, dependenciesForKustomization fs fuel p = Except.ok (f p)) →
       k.Dependencies fs fuel = Except.ok (stringSetToList (k.KustomizePaths.flatMap f))) ∧
    (∀ (pre : List String) (p : String) (post : List String) (e : String),
       k.KustomizePaths = pre ++ p :: post →
       (∀ q ∈ pre, ∃ l, dependenciesForKustomization fs fuel q = Except.ok l) →
       dependenciesForKustomization fs fuel p = Except.error e →
       k.Dependencies fs fuel = Except.error e) ∧
    (∀ l : List String,
       List.Sorted (fun a b => stringLe a b = true) (stringSetToList l) ∧
       (stringSetToList l).Nodup ∧
       ∀ x, x ∈ stringSetToList l ↔ x ∈ l) := by
  refine ⟨?_, ?_, ?_⟩
  · intro f h
    simp only [KustomizeDeployer.Dependencies, dependenciesLoop_ok fs fuel f k.KustomizePaths h]
  · intro pre p post e hsplit hpre hp
    simp only [KustomizeDeployer.Dependencies, hsplit,
      dependenciesLoop_error fs fuel e pre p post hpre hp]
  · intro l
    letI : IsTotal String (fun a b => stringLe a b = true) :=
      ⟨fun a b => charListLe_total a.toList b.toList⟩
    letI : IsTrans String (fun a b => stringLe a b = true) :=
      ⟨fun a b c => charListLe_trans a.toList b.toList c.toList⟩
    refine ⟨List.sorted_insertionSort _ _, ?_, ?_⟩
    · exact ((List.perm_insertionSort _ _).nodup_iff).2 l.nodup_dedup
    · intro x
      exact ((List.perm_insertionSort _ _).mem_iff).trans (List.mem_dedup)

/-- C5 witness: two overlays sharing an absolute crd dependency produce
the sorted deduplicated union. -/
theorem c5_witness :
    c5wDeployer.Dependencies c5wFS 1 =
      Except.ok ["/crd.yaml", "o1/kustomization.yaml", "o2/kustomization.yaml"] := by
  have h := (c5_dependencies_union c5wDeployer c5wFS 1).1
    (fun p => if p = "o1" then ["o1/kustomization.yaml", "/crd.yaml"]
              else ["o2/kustomization.yaml", "/crd.yaml"])
    (by
      intro p hp
      simp only [c5wDeployer, List.mem_cons, List.not_mem_nil, or_false] at hp
      rcases hp with rfl | rfl
      · exact rfl
      · exact rfl)
  exact h.trans rfl

/-! ## C9 -/

/-- C9 counterexample: for a path under a nested base directory, the name
of the containing directory is the basePath constant, yet
IsKustomizationBase returns false, because the source compares the whole
directory path, not its name. -/
theorem c9_counterexample :
    IsKustomizationBase "overlays/base/kustomization.yaml" = false ∧
    filepathBase (filepathDir "overlays/base/kustomization.yaml") = basePath := by
  constructor
  · rfl
  · rfl

/-- C9 (amended): IsKustomizationBase is true exactly when the whole
cleaned directory part of the path equals the basePath constant (not
merely when the name of the containing directory does), and
IsKustomizationPath is true exactly when the base filename is one of the
accepted kustomization config filenames. -/
theorem c9_amended (path : String) :
    (IsKustomizationBase path = true ↔ filepathDir path = basePath) ∧
    (IsKustomizationPath path = true ↔ filepathBase path ∈ kustomizeFilePaths) := by
  constructor
  · simp [IsKustomizationBase]
  · rw [IsKustomizationPath]
    exact List.elem_iff

/-- C9 witness: the amended theorem applied to concrete paths directly
under the base directory and under a nested base directory. -/
theorem c9_amended_witness :
    ((IsKustomizationBase "base/kustomization.yaml" = true ↔
      filepathDir "base/kustomization.yaml" = basePath) ∧
     (IsKustomizationPath "base/kustomization.yaml" = true ↔
      filepathBase "base/kustomization.yaml" ∈ kustomizeFilePaths)) ∧
    IsKustomizationBase "base/kustomization.yaml" = true ∧
    IsKustomizationPath "base/kustomization.yaml" = true :=
  ⟨c9_amended "base/kustomization.yaml", rfl, rfl⟩

/-! ## C7 -/

/-- When every configured overlay renders successfully, the readManifests
loop records one render event per path, in order, and returns the
concatenation of the non-empty outputs, in order. -/
theorem readManifestsLoop_ok (c : Collab) (b : List String) (f : String → String) :
    ∀ (paths : List String) (tr : Trace) (acc : List String),
    (∀ p ∈ paths, c.runCmdOut (buildCommandArgs b p) = Except.ok (f p)) →
    readManifestsLoop c b tr acc paths =
      (tr ++ paths.map (fun p => Event.evRender (buildCommandArgs b p)),
       Except.ok (acc ++ paths.flatMap (fun p => if (f p).length = 0 then [] else [f p])))
  | [], tr, acc => by simp [readManifestsLoop]
  | p :: rest, tr, acc => by
    intro h
    have hp := h p (List.mem_cons_self p rest)
    have hrest := fun q hq => h q (List.mem_cons_of_mem p hq)
    simp only [readManifestsLoop, hp]
    by_cases hlen : (f p).length = 0
    · rw [if_pos hlen,
        readManifestsLoop_ok c b f rest (tr ++ [Event.evRender (buildCommandArgs b p)]) acc hrest]
      simp [hlen]
    · rw [if_neg hlen,
        readManifestsLoop_ok c b f rest (tr ++ [Event.evRender (buildCommandArgs b p)])
          (acc ++ [f p]) hrest]
      simp [hlen]

/-- C7: with all renders succeeding, readManifests concatenates the
per-overlay-path outputs in overlay-path order, an overlay producing
empty output contributing nothing and raising no error; and when the
aggregated list is empty the pipeline short-circuits with an empty
result, running no image replacement, no transform and no label
injection. -/
theorem c7_concat_and_short_circuit (k : KustomizeDeployer) (c : Collab) (tr : Trace)
    (f : String → String)
    (hren : ∀ p ∈ k.KustomizePaths,
      c.runCmdOut (buildCommandArgs k.BuildArgs p) = Except.ok (f p)) :
    k.readManifests c tr =
      (tr ++ k.KustomizePaths.map (fun p => Event.evRender (buildCommandArgs k.BuildArgs p)),
       Except.ok (k.KustomizePaths.flatMap
         (fun p => if (f p).length = 0 then [] else [f p]))) ∧
    (k.KustomizePaths.flatMap (fun p => if (f p).length = 0 then [] else [f p]) = [] →
     ∀ reg, c.debugHelpersRegistry = Except.ok reg →
     k.renderManifests c tr =
       (tr ++ Event.evCheckVersion :: Event.evGetDebugHelpersRegistry ::
          k.KustomizePaths.map (fun p => Event.evRender (buildCommandArgs k.BuildArgs p)),
        Except.ok []) ∧
     ∀ ev ∈ Event.evCheckVersion :: Event.evGetDebugHelpersRegistry ::
          k.KustomizePaths.map (fun p => Event.evRender (buildCommandArgs k.BuildArgs p)),
        ev ≠ Event.evReplaceImages ∧ ev ≠ Event.evTransform ∧ ev ≠ Event.evSetLabels) := by
  constructor
  · rw [KustomizeDeployer.readManifests,
      readManifestsLoop_ok c k.BuildArgs f k.KustomizePaths tr [] hren]
    simp
  · intro hempty reg hreg
    constructor
    · simp only [KustomizeDeployer.renderManifests, hreg, KustomizeDeployer.readManifests,
        readManifestsLoop_ok c k.BuildArgs f k.KustomizePaths _ [] hren, hempty]
      simp
    · intro ev hev
      simp only [List.mem_cons, List.mem_map] at hev
      rcases hev with rfl | rfl | ⟨p, _, rfl⟩ <;> exact ⟨by simp, by simp, by simp⟩

/-- C7 witness: two overlays both rendering empty output produce an empty
manifest list, and the pipeline stops after the render calls. -/
theorem c7_witness :
    c7wDeployer.renderManifests c7wCollab [] =
      ([Event.evCheckVersion, Event.evGetDebugHelpersRegistry,
        Event.evRender ["build", "p1"], Event.evRender ["build", "p2"]],
       Except.ok []) := by
  have h := (c7_concat_and_short_circuit c7wDeployer c7wCollab [] (fun _ => "")
      (by
        intro p hp
        simp only [c7wDeployer, List.mem_cons, List.not_mem_nil, or_false] at hp
        rcases hp with rfl | rfl
        · exact rfl
        · exact rfl)).2
      rfl "reg" rfl
  exact h.1.trans (by rfl)

/-! ## C8 -/

/-- The readManifests loop only extends the trace, and never with an
apply event. -/
theorem readManifestsLoop_no_apply (c : Collab) (b : List String) :
    ∀ (paths : List String) (tr : Trace) (acc : List String),
    ∃ ext, (readManifestsLoop c b tr acc paths).1 = tr ++ ext ∧ Event.evApply ∉ ext
  | [], tr, acc => ⟨[], by simp [readManifestsLoop], by simp⟩
  | p :: rest, tr, acc => by
    cases hout : c.runCmdOut (buildCommandArgs b p) with
    | error e =>
      refine ⟨[Event.evRender (buildCommandArgs b p)], ?_, by simp⟩
      simp [readManifestsLoop, hout]
    | ok out =>
      by_cases hlen : out.length = 0
      · obtain ⟨ext, h1, h2⟩ := readManifestsLoop_no_apply c b rest
          (tr ++ [Event.evRender (buildCommandArgs b p)]) acc
        refine ⟨Event.evRender (buildCommandArgs b p) :: ext, ?_, by simp [h2]⟩
        simp [readManifestsLoop, hout, hlen, h1]
      · obtain ⟨ext, h1, h2⟩ := readManifestsLoop_no_apply c b rest
          (tr ++ [Event.evRender (buildCommandArgs b p)]) (acc ++ [out])
        refine ⟨Event.evRender (buildCommandArgs b p) :: ext, ?_, by simp [h2]⟩
        simp [readManifestsLoop, hout, hlen, h1]

/-- The transforms loop only extends the trace, and never with an apply
event. -/
theorem transformsLoop_no_apply :
    ∀ (ts : List (List String → Except String (List String))) (tr : Trace) (ms : List String),
    ∃ ext, (transformsLoop tr ms ts).1 = tr ++ ext ∧ Event.evApply ∉ ext
  | [], tr, ms => ⟨[], by simp [transformsLoop], by simp⟩
  | t :: rest, tr, ms => by
    cases ht : t ms with
    | error e =>
      refine ⟨[Event.evTransform], ?_, by simp⟩
      simp [transformsLoop, ht]
    | ok ms2 =>
      obtain ⟨ext, h1, h2⟩ := transformsLoop_no_apply rest (tr ++ [Event.evTransform]) ms2
      refine ⟨Event.evTransform :: ext, ?_, by simp [h2]⟩
      simp [transformsLoop, ht, h1]

/-- renderManifests only extends the trace, and never with an apply
event. -/
theorem renderManifests_no_apply (k : KustomizeDeployer) (c : Collab) (tr : Trace) :
    ∃ ext, (k.renderManifests c tr).1 = tr ++ ext ∧ Event.evApply ∉ ext := by
  simp only [KustomizeDeployer.renderManifests, KustomizeDeployer.readManifests]
  cases hreg : c.debugHelpersRegistry with
  | error e =>
    exact ⟨[Event.evCheckVersion, Event.evGetDebugHelpersRegistry], by simp, by simp⟩
  | ok reg =>
    obtain ⟨ext1, h1, h2⟩ := readManifestsLoop_no_apply c k.BuildArgs k.KustomizePaths
      (tr ++ [Event.evCheckVersion] ++ [Event.evGetDebugHelpersRegistry]) []
    rcases hrm : readManifestsLoop c k.BuildArgs
        (tr ++ [Event.evCheckVersion] ++ [Event.evGetDebugHelpersRegistry]) []
        k.KustomizePaths with ⟨tr2, res⟩
    rw [hrm] at h1
    simp only at h1
    cases res with
    | error e =>
      refine ⟨Event.evCheckVersion :: Event.evGetDebugHelpersRegistry :: ext1, ?_, by simp [h2]⟩
      simp only [hrm]
      simp [h1]
    | ok ms =>
      by_cases hms : ms.length = 0
      · refine ⟨Event.evCheckVersion :: Event.evGetDebugHelpersRegistry :: ext1, ?_, by simp [h2]⟩
        simp only [hrm, if_pos hms]
        simp [h1]
      · cases hri : c.replaceImages ms with
        | error e =>
          refine ⟨Event.evCheckVersion :: Event.evGetDebugHelpersRegistry :: ext1
            ++ [Event.evReplaceImages], ?_, by simp [h2]⟩
          simp only [hrm, if_neg hms, hri]
          simp [h1]
        | ok ms2 =>
          obtain ⟨ext2, h3, h4⟩ := transformsLoop_no_apply c.transforms
            (tr2 ++ [Event.evReplaceImages]) ms2
          rcases htl : transformsLoop (tr2 ++ [Event.evReplaceImages]) ms2 c.transforms
            with ⟨tr3, res2⟩
          rw [htl] at h3
          simp only at h3
          cases res2 with
          | error e =>
            refine ⟨Event.evCheckVersion :: Event.evGetDebugHelpersRegistry :: ext1
              ++ Event.evReplaceImages :: ext2, ?_, by simp [h2, h4]⟩
            simp only [hrm, if_neg hms, hri, htl]
            simp [h3, h1]
          | ok ms3 =>
            refine ⟨Event.evCheckVersion :: Event.evGetDebugHelpersRegistry :: ext1
              ++ Event.evReplaceImages :: ext2 ++ [Event.evSetLabels], ?_, by simp [h2, h4]⟩
            simp only [hrm, if_neg hms, hri, htl]
            simp [h3, h1]

/-- C8: a render that succeeds with zero manifests makes Deploy report
success with no namespaces and perform no apply call; a failing render
makes Deploy report the failure and perform no apply call; a failing
namespace collection on a non-empty render is non-fatal, Deploy still
performs the apply call and its result is decided by the apply outcome. -/
theorem c8_deploy_outcomes (k : KustomizeDeployer) (c : Collab) :
    (∀ trA, k.renderManifests c [Event.evDeployInProgress] = (trA, Except.ok []) →
       k.Deploy c = (trA ++ [Event.evDeployComplete], Result.success []) ∧
       Event.evApply ∉ trA ++ [Event.evDeployComplete]) ∧
    (∀ trA e, k.renderManifests c [Event.evDeployInProgress] = (trA, Except.error e) →
       k.Deploy c = (trA ++ [Event.evDeployFailed], Result.failure e) ∧
       Event.evApply ∉ trA ++ [Event.evDeployFailed]) ∧
    (∀ trA ms e, k.renderManifests c [Event.evDeployInProgress] = (trA, Except.ok ms) →
       ms ≠ [] → c.collectNamespaces ms = Except.error e →
       Event.evApply ∈ (k.Deploy c).1 ∧
       (c.applyManifests ms = none →
          k.Deploy c = (trA ++ [Event.evCollectNamespaces, Event.evDeployInfo,
            Event.evApply, Event.evDeployComplete], Result.success [])) ∧
       (∀ ae, c.applyManifests ms = some ae →
          k.Deploy c = (trA ++ [Event.evCollectNamespaces, Event.evDeployInfo,
            Event.evApply, Event.evDeployFailed], Result.failure ae))) := by
  have htrace : ∀ trA r, k.renderManifests c [Event.evDeployInProgress] = (trA, r) →
      Event.evApply ∉ trA := by
    intro trA r h
    obtain ⟨ext, h1, h2⟩ := renderManifests_no_apply k c [Event.evDeployInProgress]
    rw [h] at h1
    simp only at h1
    subst h1
    simp [h2]
  refine ⟨?_, ?_, ?_⟩
  · intro trA h
    refine ⟨?_, ?_⟩
    · simp [KustomizeDeployer.Deploy, h]
    · have := htrace trA _ h
      simp [this]
  · intro trA e h
    refine ⟨?_, ?_⟩
    · simp [KustomizeDeployer.Deploy, h]
    · have := htrace trA _ h
      simp [this]
  · intro trA ms e h hms hcoll
    have hlen : ¬ ms.length = 0 := by simpa [List.length_eq_zero] using hms
    refine ⟨?_, ?_, ?_⟩
    · cases hap : c.applyManifests ms with
      | none => simp [KustomizeDeployer.Deploy, h, hlen, hcoll, hap]
      | some ae => simp [KustomizeDeployer.Deploy, h, hlen, hcoll, hap]
    · intro hap
      simp [KustomizeDeployer.Deploy, h, hlen, hcoll, hap]
    · intro ae hap
      simp [KustomizeDeployer.Deploy, h, hlen, hcoll, hap]

/-- C8 witness: one overlay renders a manifest, namespace collection
fails, apply succeeds: the apply call happens and Deploy still reports
success (with empty namespaces). -/
theorem c8_witness :
    c7wDeployer.Deploy c8wCollab =
      ([Event.evDeployInProgress, Event.evCheckVersion, Event.evGetDebugHelpersRegistry,
        Event.evRender ["build", "p1"], Event.evRender ["build", "p2"],
        Event.evReplaceImages, Event.evSetLabels, Event.evCollectNamespaces,
        Event.evDeployInfo, Event.evApply, Event.evDeployComplete],
       Result.success []) ∧
    Event.evApply ∈ (c7wDeployer.Deploy c8wCollab).1 := by
  have h := (c8_deploy_outcomes c7wDeployer c8wCollab).2.2
    [Event.evDeployInProgress, Event.evCheckVersion, Event.evGetDebugHelpersRegistry,
      Event.evRender ["build", "p1"], Event.evRender ["build", "p2"],
      Event.evReplaceImages, Event.evSetLabels]
    ["m1"] "no namespaces" rfl (by simp) rfl
  exact ⟨(h.2.1 rfl).trans (by rfl), h.1⟩

end Kustomize
